import Mathlib

/-!
The abuse-contact resolution pipeline of abwhose.

A shallow embedding of `abwhose.go` (`run`, `printContactDetails`,
`getAbuseReportDetails`) and proofs about it.

* Go `map[string]string` values are association lists with unique keys
  (`GoMap`); `m[k] = v` is `GoMap.insert`, `len(m)` is `GoMap.len`.
* Go `error` values are `GoError`; `fmt.Errorf(p + "%w", e)` is `GoError.wrapped p e`.
* The rule tables `sharedHostMatchers` and `whoisMatchers`, the function
  `fallbackEmailMatcher` and the external collaborators (public suffix list,
  the `whois` binary, the DNS resolver, `net.IP.String`) are parameters,
  gathered in `Env`.  A rule table is given as the list of its entries in
  the order in which `range` visits them; Go leaves that order unspecified,
  and `rule_application_keeps_every_match` shows that the entries computed
  do not depend on it.
* Effects are recorded as a trace of `Event`s, in program order.
-/

namespace Abwhose

/-! ## Data model -/

/-- Go `error` values.  `wrapped p e` is the value of `fmt.Errorf(p + "%w", e)`. -/
inductive GoError where
  | base (msg : String)
  | wrapped (pre : String) (inner : GoError)
  deriving DecidableEq, Repr

/-- The `Error()` method. -/
def GoError.Error : GoError → String
  | .base msg => msg
  | .wrapped pre inner => pre ++ inner.Error

/-- The `Unwrap()` method (`errors.Unwrap`). -/
def GoError.Unwrap : GoError → Option GoError
  | .base _ => none
  | .wrapped _ inner => some inner

/-- A Go `map[string]string`: an association list, one pair per key. -/
abbrev GoMap := List (String × String)

/-- The assignment `m[k] = v`: overwrite the entry of `k`, or add one. -/
def GoMap.insert : GoMap → String → String → GoMap
  | [], k, v => [(k, v)]
  | (k', v') :: rest, k, v =>
    if k' = k then (k, v) :: rest else (k', v') :: GoMap.insert rest k v

/-- The number of entries, `len(m)`. -/
def GoMap.len (m : GoMap) : Nat := m.length

/-- The value stored under `k`, if any (`v, ok := m[k]`). -/
def GoMap.lookup : GoMap → String → Option String
  | [], _ => none
  | (k', v') :: rest, k => if k' = k then some v' else GoMap.lookup rest k

/-- A matcher: `func(string) (bool, string)`. -/
abbrev Matcher := String → Bool × String

/-- A rule table `map[string]func(string) (bool, string)`, as the list of its
entries in iteration order. -/
abbrev RuleTable := List (String × Matcher)

/-- The keys of a Go map are pairwise distinct. -/
def RuleTable.WF (t : RuleTable) : Prop := (t.map Prod.fst).Nodup

instance RuleTable.decidableWF (t : RuleTable) : Decidable t.WF :=
  inferInstanceAs (Decidable (t.map Prod.fst).Nodup)

/-- A `net.IP`: a byte slice. -/
abbrev IP := List Nat

/-- What `abwhose.go` uses and does not define. -/
structure Env where
  /-- Models `publicsuffix.EffectiveTLDPlusOne`. -/
  effectiveTLDPlusOne : String → String × Option GoError
  /-- The package-level table `sharedHostMatchers`. -/
  sharedHostMatchers : RuleTable
  /-- The package-level table `whoisMatchers`. -/
  whoisMatchers : RuleTable
  /-- The package-level function `fallbackEmailMatcher`. -/
  fallbackEmailMatcher : String → Bool × String
  /-- Models `exec.Command("whois", query).CombinedOutput()`, output as a string. -/
  whois : String → String × Option GoError
  /-- Models `net.LookupIP`. -/
  lookupIP : String → List IP × Option GoError
  /-- Models `net.IP.String`. -/
  ipString : IP → String

/-- The effects of a run, in program order. -/
inductive Event where
  /-- The `whois` binary was run on `query`. -/
  | whois (query : String)
  /-- A call `net.LookupIP(host)`. -/
  | lookupIP (host : String)
  /-- A call `fmt.Println(line)`. -/
  | println (line : String)
  /-- A call `printContactDetails(contactDetails)`. -/
  | printContactDetails (contactDetails : GoMap)
  deriving DecidableEq, Repr

/-- How a call of `run` ends: it returns its `error` result (`none` is
`nil`), or the goroutine panics. -/
inductive Outcome where
  | returned (err : Option GoError)
  | panicked (msg : String)
  deriving DecidableEq, Repr

/-- A finished call of `run`. -/
structure RunResult where
  trace : List Event
  outcome : Outcome
  deriving DecidableEq, Repr

/-! ## The program -/

/-- The writes of `printContactDetails`: one `Fprintf(tabWriter, "  %s:\t%s\n", ..)`
per entry, before the flush. -/
def printContactDetails (contactDetails : GoMap) : List String :=
  contactDetails.map fun (name, details) => "  " ++ name ++ ":\t" ++ details ++ "\n"

/-- The loop of `run` over `sharedHostMatchers` (lines 27-34): the pair
`(contactDetails, sharedHost)` after the loop. -/
def sharedHostLoop (table : RuleTable) (tld : String) : GoMap × Bool :=
  table.foldl
    (fun (state : GoMap × Bool) (entry : String × Matcher) =>
      let (matched, message) := entry.2 tld
      if matched then (GoMap.insert state.1 entry.1 message, true) else state)
    ([], false)

/-- The loop of `getAbuseReportDetails` over `whoisMatchers` (lines 82-87). -/
def whoisLoop (table : RuleTable) (rawWhois : String) : GoMap :=
  table.foldl
    (fun (contactDetails : GoMap) (entry : String × Matcher) =>
      let (matched, message) := entry.2 rawWhois
      if matched then GoMap.insert contactDetails entry.1 message else contactDetails)
    []

/-- The function `getAbuseReportDetails`: the events it causes and its
`(map[string]string, error)` result. -/
def getAbuseReportDetails (env : Env) (query : String) :
    List Event × Except GoError GoMap :=
  let (rawWhois, err) := env.whois query
  match err with
  | some e => ([Event.whois query], .error e)
  | none =>
    let contactDetails := whoisLoop env.whoisMatchers rawWhois
    -- None of the specific matchers hit so use a generic one
    let contactDetails :=
      if GoMap.len contactDetails = 0 then
        let (found, emails) := env.fallbackEmailMatcher rawWhois
        if found then GoMap.insert contactDetails "Email" emails else contactDetails
      else contactDetails
    -- Still found nothing so just set an error message
    let contactDetails :=
      if GoMap.len contactDetails = 0 then
        GoMap.insert contactDetails "Error" "Couldn't find any contact details."
      else contactDetails
    ([Event.whois query], .ok contactDetails)

/-- The function `run`. -/
def run (env : Env) (domain : String) : RunResult :=
  let (tld, _) := env.effectiveTLDPlusOne domain
  let (contactDetails, sharedHost) := sharedHostLoop env.sharedHostMatchers tld
  if sharedHost then
    { trace := [Event.println "Report abuse to shared hosting provider:",
                Event.printContactDetails contactDetails],
      outcome := .returned none }
  else
    match getAbuseReportDetails env tld with
    | (t1, .error err) =>
      { trace := t1,
        outcome := .returned (some (.wrapped "failed to get registrar abuse details: " err)) }
    | (t1, .ok registrarAbuse) =>
      let t2 := t1 ++ [Event.println "Report abuse to domain registrar:",
                       Event.printContactDetails registrarAbuse,
                       Event.lookupIP domain]
      match env.lookupIP domain with
      | (_, some err) =>
        { trace := t2,
          outcome := .returned (some (.wrapped "failed to resolve host: " err)) }
      | ([], none) =>
        -- ips[0] on an empty slice
        { trace := t2,
          outcome := .panicked "runtime error: index out of range [0] with length 0" }
      | (ip0 :: _, none) =>
        match getAbuseReportDetails env (env.ipString ip0) with
        | (t3, .error err) =>
          { trace := t2 ++ t3,
            outcome := .returned (some (.wrapped "failed to get host abuse details: " err)) }
        | (t3, .ok hostAbuse) =>
          { trace := t2 ++ t3 ++ [Event.println "Report abuse to host:",
                                  Event.printContactDetails hostAbuse],
            outcome := .returned none }

/-- What an event puts on standard output. -/
def Event.output : Event → List String
  | .println line => [line ++ "\n"]
  | .printContactDetails contactDetails => Abwhose.printContactDetails contactDetails
  | _ => []

/-- Whether some rule of the table matches the query. -/
def anyMatch (table : RuleTable) (query : String) : Bool :=
  table.any fun entry => (entry.2 query).1

/-- The entries `name -> message` of the rules that match, in table order. -/
def matchedEntries (table : RuleTable) (query : String) : GoMap :=
  table.filterMap fun entry =>
    if (entry.2 query).1 then some (entry.1, (entry.2 query).2) else none

/-- The mapping `getAbuseReportDetails` computes from a WHOIS text, in closed
form: the entries of the rules when one matches, else the fallback entry,
else the error entry. -/
def classification (env : Env) (text : String) : GoMap :=
  if anyMatch env.whoisMatchers text then whoisLoop env.whoisMatchers text
  else if (env.fallbackEmailMatcher text).1 then
    [("Email", (env.fallbackEmailMatcher text).2)]
  else [("Error", "Couldn't find any contact details.")]

/-! ## Example environments -/

/-- An example of a shared-host table. -/
def exampleSharedHostMatchers : RuleTable :=
  [("GitHub Pages", fun tld => (tld == "github.io", "https://github.com/contact/report-abuse")),
   ("Blogspot", fun tld => (tld == "blogspot.com", "https://support.google.com/blogger/answer/76315"))]

/-- A WHOIS text with a provider signature. -/
def cloudflareText : String := "OrgName: Cloudflare, Inc."

/-- A WHOIS text with an address and no provider signature. -/
def emailText : String := "Registrar Abuse Contact Email: abuse@example.com"

/-- A WHOIS text with neither. -/
def bareText : String := "No match for domain"

/-- An example of a WHOIS table; both rules match `cloudflareText`. -/
def exampleWhoisMatchers : RuleTable :=
  [("Cloudflare", fun raw => (raw == cloudflareText, "https://www.cloudflare.com/abuse/form")),
   ("ARIN", fun raw => (raw == cloudflareText || raw == "NetRange: 192.0.2.0", "abuse@arin.example"))]

/-- An example of the public suffix computation; it fails on a bare suffix. -/
def examplePublicSuffix (domain : String) : String × Option GoError :=
  if domain = "sub.github.io" then ("github.io", none)
  else if domain = "www.example.com" then ("example.com", none)
  else if domain = "com" then
    ("", some (.base "publicsuffix: cannot derive eTLD+1 for domain com"))
  else (domain, none)

/-- An example of the fallback matcher. -/
def exampleFallback (raw : String) : Bool × String :=
  if raw = emailText then (true, "abuse@example.com") else (false, "")

/-- An environment whose WHOIS and DNS collaborators fail on every input. -/
def failingEnv : Env where
  effectiveTLDPlusOne := examplePublicSuffix
  sharedHostMatchers := exampleSharedHostMatchers
  whoisMatchers := exampleWhoisMatchers
  fallbackEmailMatcher := exampleFallback
  whois := fun _ => ("", some (.base "exit status 2"))
  lookupIP := fun _ => ([], some (.base "no such host"))
  ipString := fun _ => "192.0.2.1"

/-- An environment whose collaborators work; `whois` answers with `text`
for a domain and with `hostText` for an address, DNS answers with `ips`. -/
def workingEnv (text hostText : String) (ips : List IP) : Env where
  effectiveTLDPlusOne := examplePublicSuffix
  sharedHostMatchers := exampleSharedHostMatchers
  whoisMatchers := exampleWhoisMatchers
  fallbackEmailMatcher := exampleFallback
  whois := fun query => if query = "192.0.2.1" then (hostText, none) else (text, none)
  lookupIP := fun _ => (ips, none)
  ipString := fun ip => if ip = [192, 0, 2, 1] then "192.0.2.1" else "198.51.100.7"

/-- An environment with one shared-host rule, which matches the string `com` only. -/
def suffixEnv : Env where
  effectiveTLDPlusOne := examplePublicSuffix
  sharedHostMatchers := [("Registry", fun tld => (tld == "com", "abuse@registry.example"))]
  whoisMatchers := exampleWhoisMatchers
  fallbackEmailMatcher := exampleFallback
  whois := fun _ => (bareText, none)
  lookupIP := fun _ => ([[192, 0, 2, 1]], none)
  ipString := fun _ => "192.0.2.1"

/-! ## Maps -/

theorem GoMap.insert_ne_nil (m : GoMap) (k v : String) : GoMap.insert m k v ≠ [] := by
  cases m with
  | nil => simp [GoMap.insert]
  | cons hd tl =>
    obtain ⟨k', v'⟩ := hd
    simp only [GoMap.insert]
    split <;> simp

theorem GoMap.insert_fresh (m : GoMap) (k v : String) (h : k ∉ m.map Prod.fst) :
    GoMap.insert m k v = m ++ [(k, v)] := by
  induction m with
  | nil => rfl
  | cons hd tl ih =>
    obtain ⟨k', v'⟩ := hd
    simp only [List.map_cons, List.mem_cons, not_or] at h
    have hne : ¬ k' = k := fun e => h.1 e.symm
    simp [GoMap.insert, hne, ih h.2]

theorem GoMap.lookup_eq_some_iff (m : GoMap) (hm : (m.map Prod.fst).Nodup) (k v : String) :
    GoMap.lookup m k = some v ↔ (k, v) ∈ m := by
  induction m with
  | nil => simp [GoMap.lookup]
  | cons hd tl ih =>
    obtain ⟨k', v'⟩ := hd
    simp only [List.map_cons, List.nodup_cons] at hm
    simp only [GoMap.lookup, List.mem_cons, Prod.mk.injEq]
    by_cases hk : k' = k
    · subst hk
      simp only [if_true, Option.some.injEq, true_and]
      constructor
      · intro h; exact Or.inl h.symm
      · rintro (h | h)
        · exact h.symm
        · exact absurd (List.mem_map_of_mem Prod.fst h) hm.1
    · simp only [if_neg hk, ih hm.2]
      constructor
      · intro h; exact Or.inr h
      · rintro (h | h)
        · exact absurd h.1.symm hk
        · exact h

/-! ## The two loops -/

theorem whoisLoop_foldl_nil (table : RuleTable) (q : String) (acc : GoMap) :
    table.foldl
      (fun (contactDetails : GoMap) (entry : String × Matcher) =>
        let (matched, message) := entry.2 q
        if matched then GoMap.insert contactDetails entry.1 message else contactDetails)
      acc = [] ↔ acc = [] ∧ anyMatch table q = false := by
  induction table generalizing acc with
  | nil => simp [anyMatch]
  | cons hd tl ih =>
    simp only [List.foldl_cons, ih, anyMatch, List.any_cons, Bool.or_eq_false_iff]
    cases h : (hd.2 q).1 <;> simp [h, GoMap.insert_ne_nil]

theorem whoisLoop_eq_nil_iff (table : RuleTable) (q : String) :
    whoisLoop table q = [] ↔ anyMatch table q = false := by
  simp [whoisLoop, whoisLoop_foldl_nil]

theorem sharedHostLoop_foldl (table : RuleTable) (q : String) (acc : GoMap) (b : Bool) :
    table.foldl
      (fun (state : GoMap × Bool) (entry : String × Matcher) =>
        let (matched, message) := entry.2 q
        if matched then (GoMap.insert state.1 entry.1 message, true) else state)
      (acc, b) =
    (table.foldl
      (fun (contactDetails : GoMap) (entry : String × Matcher) =>
        let (matched, message) := entry.2 q
        if matched then GoMap.insert contactDetails entry.1 message else contactDetails)
      acc, b || anyMatch table q) := by
  induction table generalizing acc b with
  | nil => simp [anyMatch]
  | cons hd tl ih =>
    simp only [List.foldl_cons, anyMatch, List.any_cons]
    cases h : (hd.2 q).1
    · simpa [h, anyMatch] using ih acc b
    · simpa [h, anyMatch] using ih (GoMap.insert acc hd.1 (hd.2 q).2) true

theorem sharedHostLoop_eq (table : RuleTable) (q : String) :
    sharedHostLoop table q = (whoisLoop table q, anyMatch table q) := by
  simp [sharedHostLoop, whoisLoop, sharedHostLoop_foldl]

theorem whoisLoop_foldl_wf (table : RuleTable) (q : String) (acc : GoMap)
    (hwf : (table.map Prod.fst).Nodup)
    (hdisj : ∀ k, k ∈ acc.map Prod.fst → k ∉ table.map Prod.fst) :
    table.foldl
      (fun (contactDetails : GoMap) (entry : String × Matcher) =>
        let (matched, message) := entry.2 q
        if matched then GoMap.insert contactDetails entry.1 message else contactDetails)
      acc = acc ++ matchedEntries table q := by
  induction table generalizing acc with
  | nil => simp [matchedEntries]
  | cons hd tl ih =>
    simp only [List.map_cons, List.nodup_cons] at hwf
    have hfresh : hd.1 ∉ acc.map Prod.fst := fun hmem =>
      hdisj hd.1 hmem (by simp)
    simp only [List.foldl_cons]
    cases h : (hd.2 q).1
    · have hd' : ∀ k, k ∈ acc.map Prod.fst → k ∉ tl.map Prod.fst := fun k hk hk' =>
        hdisj k hk (by simp only [List.map_cons, List.mem_cons]; exact Or.inr hk')
      simpa [h, matchedEntries] using ih acc hwf.2 hd'
    · have hd' : ∀ k, k ∈ (GoMap.insert acc hd.1 (hd.2 q).2).map Prod.fst →
          k ∉ tl.map Prod.fst := by
        intro k hk hk'
        rw [GoMap.insert_fresh acc _ _ hfresh] at hk
        simp only [List.map_append, List.map_cons, List.map_nil, List.mem_append,
          List.mem_singleton] at hk
        rcases hk with hk | hk
        · exact hdisj k hk (by simp only [List.map_cons, List.mem_cons]; exact Or.inr hk')
        · exact hwf.1 (hk ▸ hk')
      have key := ih (GoMap.insert acc hd.1 (hd.2 q).2) hwf.2 hd'
      simpa [h, matchedEntries, GoMap.insert_fresh acc hd.1 (hd.2 q).2 hfresh] using key

theorem whoisLoop_eq_matchedEntries (table : RuleTable) (q : String) (hwf : table.WF) :
    whoisLoop table q = matchedEntries table q := by
  have := whoisLoop_foldl_wf table q [] hwf (by simp)
  simpa [whoisLoop] using this

theorem anyMatch_eq_true_iff (table : RuleTable) (q : String) :
    anyMatch table q = true ↔ ∃ entry ∈ table, (entry.2 q).1 = true := by
  simp [anyMatch]

theorem anyMatch_eq_false_iff (table : RuleTable) (q : String) :
    anyMatch table q = false ↔ ∀ entry ∈ table, (entry.2 q).1 = false := by
  simp [anyMatch]

theorem mem_matchedEntries (table : RuleTable) (q name msg : String) :
    (name, msg) ∈ matchedEntries table q ↔
      ∃ matcher, (name, matcher) ∈ table ∧ matcher q = (true, msg) := by
  simp only [matchedEntries, List.mem_filterMap]
  constructor
  · rintro ⟨⟨n, matcher⟩, hmem, h⟩
    by_cases hm : (matcher q).1 = true
    · simp only [hm, if_true, Option.some.injEq, Prod.mk.injEq] at h
      obtain ⟨h1, h2⟩ := h
      subst h1
      exact ⟨matcher, hmem, Prod.ext hm h2⟩
    · simp [hm] at h
  · rintro ⟨matcher, hmem, h⟩
    exact ⟨(name, matcher), hmem, by simp [h]⟩

theorem matchedEntries_keys_nodup (table : RuleTable) (q : String) (hwf : table.WF) :
    ((matchedEntries table q).map Prod.fst).Nodup := by
  unfold RuleTable.WF at hwf
  induction table with
  | nil => simp [matchedEntries]
  | cons hd tl ih =>
    simp only [List.map_cons, List.nodup_cons] at hwf
    have htl := ih hwf.2
    by_cases hm : (hd.2 q).1 = true
    · have : matchedEntries (hd :: tl) q = (hd.1, (hd.2 q).2) :: matchedEntries tl q := by
        simp [matchedEntries, hm]
      rw [this, List.map_cons, List.nodup_cons]
      refine ⟨?_, htl⟩
      intro hmem
      obtain ⟨⟨k, v⟩, hkv, hk⟩ := List.mem_map.1 hmem
      obtain ⟨matcher, hmem', -⟩ := (mem_matchedEntries tl q k v).1 hkv
      simp only at hk
      subst hk
      exact hwf.1 (List.mem_map.2 ⟨(hd.1, matcher), hmem', rfl⟩)
    · have : matchedEntries (hd :: tl) q = matchedEntries tl q := by
        simp [matchedEntries, hm]
      rw [this]; exact htl

theorem matchedEntries_perm (table table' : RuleTable) (q : String)
    (h : table.Perm table') : (matchedEntries table q).Perm (matchedEntries table' q) :=
  List.Perm.filterMap _ h

/-! ## Unfolding `getAbuseReportDetails` and `run` -/

theorem getAbuseReportDetails_error (env : Env) (query text : String) (e : GoError)
    (h : env.whois query = (text, some e)) :
    getAbuseReportDetails env query = ([Event.whois query], .error e) := by
  simp [getAbuseReportDetails, h]

theorem getAbuseReportDetails_ok (env : Env) (query text : String)
    (h : env.whois query = (text, none)) :
    getAbuseReportDetails env query = ([Event.whois query], .ok (classification env text)) := by
  simp only [getAbuseReportDetails, h, classification, GoMap.len, List.length_eq_zero]
  cases hm : anyMatch env.whoisMatchers text
  · have hnil := (whoisLoop_eq_nil_iff env.whoisMatchers text).2 hm
    cases hf : (env.fallbackEmailMatcher text).1 <;>
      simp [hnil, hf, GoMap.insert]
  · have hne : whoisLoop env.whoisMatchers text ≠ [] := fun hnil => by
      rw [whoisLoop_eq_nil_iff] at hnil; simp [hm] at hnil
    simp [hne]

theorem classification_ne_nil (env : Env) (text : String) : classification env text ≠ [] := by
  unfold classification
  split
  · next hm =>
    intro hnil
    rw [whoisLoop_eq_nil_iff] at hnil
    simp [hm] at hnil
  · split <;> simp

theorem run_shared (env : Env) (domain : String)
    (h : anyMatch env.sharedHostMatchers (env.effectiveTLDPlusOne domain).1 = true) :
    run env domain =
      { trace := [Event.println "Report abuse to shared hosting provider:",
                  Event.printContactDetails
                    (sharedHostLoop env.sharedHostMatchers (env.effectiveTLDPlusOne domain).1).1],
        outcome := .returned none } := by
  simp [run, sharedHostLoop_eq, h]

theorem run_registrar_error (env : Env) (domain text : String) (e : GoError)
    (h : anyMatch env.sharedHostMatchers (env.effectiveTLDPlusOne domain).1 = false)
    (hw : env.whois (env.effectiveTLDPlusOne domain).1 = (text, some e)) :
    run env domain =
      { trace := [Event.whois (env.effectiveTLDPlusOne domain).1],
        outcome := .returned (some (.wrapped "failed to get registrar abuse details: " e)) } := by
  simp [run, sharedHostLoop_eq, h, getAbuseReportDetails_error env _ _ _ hw]

theorem run_dns_error (env : Env) (domain text : String) (ips : List IP) (e : GoError)
    (h : anyMatch env.sharedHostMatchers (env.effectiveTLDPlusOne domain).1 = false)
    (hw : env.whois (env.effectiveTLDPlusOne domain).1 = (text, none))
    (hd : env.lookupIP domain = (ips, some e)) :
    run env domain =
      { trace := [Event.whois (env.effectiveTLDPlusOne domain).1,
                  Event.println "Report abuse to domain registrar:",
                  Event.printContactDetails (classification env text),
                  Event.lookupIP domain],
        outcome := .returned (some (.wrapped "failed to resolve host: " e)) } := by
  simp [run, sharedHostLoop_eq, h, getAbuseReportDetails_ok env _ _ hw, hd]

theorem run_dns_empty (env : Env) (domain text : String)
    (h : anyMatch env.sharedHostMatchers (env.effectiveTLDPlusOne domain).1 = false)
    (hw : env.whois (env.effectiveTLDPlusOne domain).1 = (text, none))
    (hd : env.lookupIP domain = ([], none)) :
    run env domain =
      { trace := [Event.whois (env.effectiveTLDPlusOne domain).1,
                  Event.println "Report abuse to domain registrar:",
                  Event.printContactDetails (classification env text),
                  Event.lookupIP domain],
        outcome := .panicked "runtime error: index out of range [0] with length 0" } := by
  simp [run, sharedHostLoop_eq, h, getAbuseReportDetails_ok env _ _ hw, hd]

theorem run_host_error (env : Env) (domain text hostText : String) (ip : IP) (rest : List IP)
    (e : GoError)
    (h : anyMatch env.sharedHostMatchers (env.effectiveTLDPlusOne domain).1 = false)
    (hw : env.whois (env.effectiveTLDPlusOne domain).1 = (text, none))
    (hd : env.lookupIP domain = (ip :: rest, none))
    (hh : env.whois (env.ipString ip) = (hostText, some e)) :
    run env domain =
      { trace := [Event.whois (env.effectiveTLDPlusOne domain).1,
                  Event.println "Report abuse to domain registrar:",
                  Event.printContactDetails (classification env text),
                  Event.lookupIP domain,
                  Event.whois (env.ipString ip)],
        outcome := .returned (some (.wrapped "failed to get host abuse details: " e)) } := by
  simp [run, sharedHostLoop_eq, h, getAbuseReportDetails_ok env _ _ hw, hd,
    getAbuseReportDetails_error env _ _ _ hh]

theorem run_host_ok (env : Env) (domain text hostText : String) (ip : IP) (rest : List IP)
    (h : anyMatch env.sharedHostMatchers (env.effectiveTLDPlusOne domain).1 = false)
    (hw : env.whois (env.effectiveTLDPlusOne domain).1 = (text, none))
    (hd : env.lookupIP domain = (ip :: rest, none))
    (hh : env.whois (env.ipString ip) = (hostText, none)) :
    run env domain =
      { trace := [Event.whois (env.effectiveTLDPlusOne domain).1,
                  Event.println "Report abuse to domain registrar:",
                  Event.printContactDetails (classification env text),
                  Event.lookupIP domain,
                  Event.whois (env.ipString ip),
                  Event.println "Report abuse to host:",
                  Event.printContactDetails (classification env hostText)],
        outcome := .returned none } := by
  simp [run, sharedHostLoop_eq, h, getAbuseReportDetails_ok env _ _ hw, hd,
    getAbuseReportDetails_ok env _ _ hh]

/-! ## The shared-host branch -/

/-- C1: when some rule of `sharedHostMatchers` matches the effective root of
the domain, `run` returns `nil`, its whole trace is the line "Report abuse to
shared hosting provider:" followed by one call of `printContactDetails` on
the mapping of the matched rules, and the trace holds no WHOIS lookup and no
DNS lookup, whatever the WHOIS and DNS collaborators would answer. -/
theorem shared_host_short_circuit (env : Env) (domain : String)
    (h : ∃ entry ∈ env.sharedHostMatchers,
      (entry.2 (env.effectiveTLDPlusOne domain).1).1 = true) :
    run env domain =
        { trace := [Event.println "Report abuse to shared hosting provider:",
                    Event.printContactDetails
                      (sharedHostLoop env.sharedHostMatchers
                        (env.effectiveTLDPlusOne domain).1).1],
          outcome := .returned none }
      ∧ (run env domain).outcome = .returned none
      ∧ (sharedHostLoop env.sharedHostMatchers (env.effectiveTLDPlusOne domain).1).1 ≠ []
      ∧ (env.sharedHostMatchers.WF →
          (sharedHostLoop env.sharedHostMatchers (env.effectiveTLDPlusOne domain).1).1 =
            matchedEntries env.sharedHostMatchers (env.effectiveTLDPlusOne domain).1)
      ∧ (∀ query, Event.whois query ∉ (run env domain).trace)
      ∧ (∀ host, Event.lookupIP host ∉ (run env domain).trace) := by
  have hm := (anyMatch_eq_true_iff _ _).2 h
  have hrun := run_shared env domain hm
  refine ⟨hrun, by rw [hrun], ?_, ?_, ?_, ?_⟩
  · rw [sharedHostLoop_eq]
    intro hnil
    rw [whoisLoop_eq_nil_iff] at hnil
    simp [hm] at hnil
  · intro hwf
    rw [sharedHostLoop_eq]
    exact whoisLoop_eq_matchedEntries _ _ hwf
  · intro query; rw [hrun]; simp
  · intro host; rw [hrun]; simp

/-- C1 at `sub.github.io`, with WHOIS and DNS collaborators that fail on every input. -/
theorem shared_host_short_circuit_witness :
    (∀ query, (failingEnv.whois query).2 ≠ none)
      ∧ (∀ host, (failingEnv.lookupIP host).2 ≠ none)
      ∧ run failingEnv "sub.github.io" =
        { trace := [Event.println "Report abuse to shared hosting provider:",
                    Event.printContactDetails
                      [("GitHub Pages", "https://github.com/contact/report-abuse")]],
          outcome := .returned none } :=
  ⟨fun _ => by simp [failingEnv], fun _ => by simp [failingEnv],
    (shared_host_short_circuit failingEnv "sub.github.io" (by decide)).1⟩

/-! ## Classification of a WHOIS text -/

/-- C2: when the lookup succeeds with a text that no rule of `whoisMatchers`
matches and in which `fallbackEmailMatcher` finds nothing,
`getAbuseReportDetails` returns (with a `nil` error) the mapping whose only
entry is "Error" -> "Couldn't find any contact details.". -/
theorem no_contact_details_entry (env : Env) (query text : String)
    (hw : env.whois query = (text, none))
    (hno : ∀ entry ∈ env.whoisMatchers, (entry.2 text).1 = false)
    (hfb : (env.fallbackEmailMatcher text).1 = false) :
    getAbuseReportDetails env query =
      ([Event.whois query], .ok [("Error", "Couldn't find any contact details.")]) := by
  rw [getAbuseReportDetails_ok env query text hw]
  simp [classification, (anyMatch_eq_false_iff _ _).2 hno, hfb]

/-- C2 at `example.com`, whose WHOIS text has no signature and no address. -/
theorem no_contact_details_entry_witness :
    getAbuseReportDetails (workingEnv bareText "" []) "example.com" =
      ([Event.whois "example.com"], .ok [("Error", "Couldn't find any contact details.")]) :=
  no_contact_details_entry (workingEnv bareText "" []) "example.com" bareText
    (by decide) (by decide) (by decide)

/-- C6: when the lookup succeeds with a text that no rule of `whoisMatchers`
matches and in which `fallbackEmailMatcher` finds the address string `e`,
`getAbuseReportDetails` returns (with a `nil` error) the mapping whose only
entry is "Email" -> `e`. -/
theorem fallback_email_entry (env : Env) (query text e : String)
    (hw : env.whois query = (text, none))
    (hno : ∀ entry ∈ env.whoisMatchers, (entry.2 text).1 = false)
    (hfb : env.fallbackEmailMatcher text = (true, e)) :
    getAbuseReportDetails env query = ([Event.whois query], .ok [("Email", e)]) := by
  rw [getAbuseReportDetails_ok env query text hw]
  simp [classification, (anyMatch_eq_false_iff _ _).2 hno, hfb]

/-- C6 at `example.com`, whose WHOIS text holds `abuse@example.com` and no signature. -/
theorem fallback_email_entry_witness :
    getAbuseReportDetails (workingEnv emailText "" []) "example.com" =
      ([Event.whois "example.com"], .ok [("Email", "abuse@example.com")]) :=
  fallback_email_entry (workingEnv emailText "" []) "example.com" emailText
    "abuse@example.com" (by decide) (by decide) (by decide)

/-- C4: for a successful lookup, when some rule of `whoisMatchers` matches the
text the result of `getAbuseReportDetails` is the same whatever the fallback
matcher is; when no rule matches, the result is fixed by what
`fallbackEmailMatcher` returns on that text (the "Email" entry when it finds
something, the "Error" entry otherwise), so two fallback matchers that
disagree on whether something is found give different results. -/
theorem fallback_iff_no_direct_match (env : Env) (query text : String)
    (hw : env.whois query = (text, none)) :
    ((∃ entry ∈ env.whoisMatchers, (entry.2 text).1 = true) →
        ∀ fallback : String → Bool × String,
          getAbuseReportDetails { env with fallbackEmailMatcher := fallback } query =
            getAbuseReportDetails env query)
      ∧ ((∀ entry ∈ env.whoisMatchers, (entry.2 text).1 = false) →
          (getAbuseReportDetails env query).2 =
              .ok (if (env.fallbackEmailMatcher text).1 then
                    [("Email", (env.fallbackEmailMatcher text).2)]
                  else [("Error", "Couldn't find any contact details.")])
            ∧ ∀ fallback : String → Bool × String,
                (fallback text).1 = !(env.fallbackEmailMatcher text).1 →
                getAbuseReportDetails { env with fallbackEmailMatcher := fallback } query ≠
                  getAbuseReportDetails env query) := by
  constructor
  · intro hm fallback
    have hm' := (anyMatch_eq_true_iff _ _).2 hm
    rw [getAbuseReportDetails_ok env query text hw,
      getAbuseReportDetails_ok { env with fallbackEmailMatcher := fallback } query text hw]
    simp [classification, hm']
  · intro hno
    have hno' := (anyMatch_eq_false_iff _ _).2 hno
    refine ⟨?_, ?_⟩
    · rw [getAbuseReportDetails_ok env query text hw]
      simp [classification, hno']
    · intro fallback hflip
      rw [getAbuseReportDetails_ok env query text hw,
        getAbuseReportDetails_ok { env with fallbackEmailMatcher := fallback } query text hw]
      cases hf : (env.fallbackEmailMatcher text).1 <;>
        simp [classification, hno', hf, hflip]

/-- C4 at a text with a provider signature and at a text with an address only. -/
theorem fallback_iff_no_direct_match_witness :
    (∀ fallback : String → Bool × String,
        getAbuseReportDetails
            { workingEnv cloudflareText "" [] with fallbackEmailMatcher := fallback }
            "example.com" =
          getAbuseReportDetails (workingEnv cloudflareText "" []) "example.com")
      ∧ (getAbuseReportDetails (workingEnv emailText "" []) "example.com").2 =
          .ok [("Email", "abuse@example.com")] :=
  ⟨(fallback_iff_no_direct_match (workingEnv cloudflareText "" []) "example.com"
      cloudflareText (by decide)).1 (by decide),
    ((fallback_iff_no_direct_match (workingEnv emailText "" []) "example.com"
      emailText (by decide)).2 (by decide)).1⟩

theorem lookup_matchedEntries (table : RuleTable) (q : String) (hwf : table.WF)
    (name msg : String) :
    GoMap.lookup (matchedEntries table q) name = some msg ↔
      ∃ matcher, (name, matcher) ∈ table ∧ matcher q = (true, msg) := by
  rw [GoMap.lookup_eq_some_iff _ (matchedEntries_keys_nodup table q hwf), mem_matchedEntries]

theorem RuleTable.WF_of_perm (table table' : RuleTable) (hwf : table.WF)
    (h : table.Perm table') : table'.WF := by
  unfold RuleTable.WF at *
  exact (List.Perm.nodup_iff (List.Perm.map Prod.fst h)).1 hwf

/-- C5: for a rule table with distinct names, the mapping built by the
shared-host loop of `run` holds `name -> message` exactly for the rules that
match the query, each with its own message, and visiting the rules in another
order gives the same entries; and when the lookup succeeds with a text that
some rule of `whoisMatchers` matches, `getAbuseReportDetails` returns exactly
the entries of the matching rules, again whatever the order of the rules. -/
theorem rule_application_keeps_every_match (table : RuleTable) (q : String)
    (env : Env) (query text : String)
    (htable : table.WF) (hwm : env.whoisMatchers.WF)
    (hw : env.whois query = (text, none))
    (hm : ∃ entry ∈ env.whoisMatchers, (entry.2 text).1 = true) :
    (sharedHostLoop table q).1 = matchedEntries table q
      ∧ ((sharedHostLoop table q).2 = true ↔ ∃ entry ∈ table, (entry.2 q).1 = true)
      ∧ (∀ name msg, GoMap.lookup (sharedHostLoop table q).1 name = some msg ↔
          ∃ matcher, (name, matcher) ∈ table ∧ matcher q = (true, msg))
      ∧ (∀ table' : RuleTable, table.Perm table' →
          (sharedHostLoop table' q).1.Perm (sharedHostLoop table q).1
            ∧ ∀ name, GoMap.lookup (sharedHostLoop table' q).1 name =
                GoMap.lookup (sharedHostLoop table q).1 name)
      ∧ getAbuseReportDetails env query =
          ([Event.whois query], .ok (matchedEntries env.whoisMatchers text))
      ∧ (∀ name msg, GoMap.lookup (matchedEntries env.whoisMatchers text) name = some msg ↔
          ∃ matcher, (name, matcher) ∈ env.whoisMatchers ∧ matcher text = (true, msg))
      ∧ (∀ table' : RuleTable, env.whoisMatchers.Perm table' →
          getAbuseReportDetails { env with whoisMatchers := table' } query =
              ([Event.whois query], .ok (matchedEntries table' text))
            ∧ (matchedEntries table' text).Perm (matchedEntries env.whoisMatchers text)
            ∧ ∀ name, GoMap.lookup (matchedEntries table' text) name =
                GoMap.lookup (matchedEntries env.whoisMatchers text) name) := by
  have hloop : ∀ t : RuleTable, t.WF → (sharedHostLoop t q).1 = matchedEntries t q := by
    intro t ht
    rw [sharedHostLoop_eq]
    exact whoisLoop_eq_matchedEntries t q ht
  have hlookup : ∀ (t t' : RuleTable) (x : String), t.WF → t.Perm t' →
      ∀ name, GoMap.lookup (matchedEntries t' x) name =
        GoMap.lookup (matchedEntries t x) name := by
    intro t t' x ht hperm name
    have ht' := RuleTable.WF_of_perm t t' ht hperm
    cases hl : GoMap.lookup (matchedEntries t x) name with
    | none =>
      cases hl' : GoMap.lookup (matchedEntries t' x) name with
      | none => rfl
      | some v =>
        obtain ⟨matcher, hmem, hv⟩ := (lookup_matchedEntries t' x ht' name v).1 hl'
        have := (lookup_matchedEntries t x ht name v).2 ⟨matcher, hperm.symm.subset hmem, hv⟩
        rw [hl] at this
        exact absurd this (by simp)
    | some v =>
      obtain ⟨matcher, hmem, hv⟩ := (lookup_matchedEntries t x ht name v).1 hl
      exact (lookup_matchedEntries t' x ht' name v).2 ⟨matcher, hperm.subset hmem, hv⟩
  have hget : ∀ t : RuleTable, t.WF → (∃ entry ∈ t, (entry.2 text).1 = true) →
      getAbuseReportDetails { env with whoisMatchers := t } query =
        ([Event.whois query], .ok (matchedEntries t text)) := by
    intro t ht hmt
    rw [getAbuseReportDetails_ok { env with whoisMatchers := t } query text hw]
    have hany : anyMatch t text = true := (anyMatch_eq_true_iff _ _).2 hmt
    simp [classification, hany, whoisLoop_eq_matchedEntries t text ht]
  refine ⟨hloop table htable, ?_, ?_, ?_, hget env.whoisMatchers hwm hm, ?_, ?_⟩
  · rw [sharedHostLoop_eq]
    exact anyMatch_eq_true_iff table q
  · intro name msg
    rw [hloop table htable]
    exact lookup_matchedEntries table q htable name msg
  · intro table' hperm
    rw [hloop table htable, hloop table' (RuleTable.WF_of_perm table table' htable hperm)]
    exact ⟨(matchedEntries_perm table table' q hperm).symm,
      hlookup table table' q htable hperm⟩
  · intro name msg
    exact lookup_matchedEntries env.whoisMatchers text hwm name msg
  · intro table' hperm
    obtain ⟨entry, hmem, hentry⟩ := hm
    exact ⟨hget table' (RuleTable.WF_of_perm _ table' hwm hperm)
        ⟨entry, hperm.subset hmem, hentry⟩,
      (matchedEntries_perm _ table' text hperm).symm,
      hlookup _ table' text hwm hperm⟩

/-- C5 at a text that both example rules match: both entries are returned. -/
theorem rule_application_keeps_every_match_witness :
    (sharedHostLoop exampleSharedHostMatchers "github.io").1 =
        matchedEntries exampleSharedHostMatchers "github.io"
      ∧ getAbuseReportDetails (workingEnv cloudflareText "" []) "example.com" =
          ([Event.whois "example.com"],
            .ok [("Cloudflare", "https://www.cloudflare.com/abuse/form"),
                 ("ARIN", "abuse@arin.example")]) :=
  have h := rule_application_keeps_every_match exampleSharedHostMatchers "github.io"
    (workingEnv cloudflareText "" []) "example.com" cloudflareText
    (by decide) (by decide) (by decide) (by decide)
  ⟨h.1, h.2.2.2.2.1⟩

/-! ## The orchestrator -/

/-- C3: every mapping that `run` hands to `printContactDetails` has at least
one entry, for every domain, every rule table and every behaviour of the
collaborators. -/
theorem printed_details_nonempty (env : Env) (domain : String) (m : GoMap)
    (h : Event.printContactDetails m ∈ (run env domain).trace) : 0 < GoMap.len m := by
  have hpos : ∀ l : GoMap, l ≠ [] → 0 < GoMap.len l := fun l hl =>
    List.length_pos.2 hl
  cases hs : anyMatch env.sharedHostMatchers (env.effectiveTLDPlusOne domain).1
  · rcases hw : env.whois (env.effectiveTLDPlusOne domain).1 with ⟨text, _ | e⟩
    · rcases hd : env.lookupIP domain with ⟨ips, _ | e⟩
      · cases ips with
        | nil =>
          rw [run_dns_empty env domain text hs hw hd] at h
          simp only [List.mem_cons, Event.printContactDetails.injEq, List.mem_nil_iff,
            or_false, false_or, reduceCtorEq] at h
          subst h
          exact hpos _ (classification_ne_nil env text)
        | cons ip rest =>
          rcases hh : env.whois (env.ipString ip) with ⟨hostText, _ | e⟩
          · rw [run_host_ok env domain text hostText ip rest hs hw hd hh] at h
            simp only [List.mem_cons, Event.printContactDetails.injEq, List.mem_nil_iff,
              or_false, false_or, reduceCtorEq] at h
            rcases h with h | h <;> subst h
            · exact hpos _ (classification_ne_nil env text)
            · exact hpos _ (classification_ne_nil env hostText)
          · rw [run_host_error env domain text hostText ip rest e hs hw hd hh] at h
            simp only [List.mem_cons, Event.printContactDetails.injEq, List.mem_nil_iff,
              or_false, false_or, reduceCtorEq] at h
            subst h
            exact hpos _ (classification_ne_nil env text)
      · rw [run_dns_error env domain text ips e hs hw hd] at h
        simp only [List.mem_cons, Event.printContactDetails.injEq, List.mem_nil_iff,
          or_false, false_or, reduceCtorEq] at h
        subst h
        exact hpos _ (classification_ne_nil env text)
    · rw [run_registrar_error env domain text e hs hw] at h
      simp at h
  · rw [run_shared env domain hs] at h
    simp only [List.mem_cons, Event.printContactDetails.injEq, List.mem_nil_iff,
      or_false, false_or, reduceCtorEq] at h
    subst h
    apply hpos
    rw [sharedHostLoop_eq]
    intro hnil
    rw [whoisLoop_eq_nil_iff] at hnil
    simp [hs] at hnil

/-- C3 at `www.example.com`: the host mapping of a full run. -/
theorem printed_details_nonempty_witness :
    Event.printContactDetails [("Error", "Couldn't find any contact details.")] ∈
        (run (workingEnv emailText bareText [[192, 0, 2, 1]]) "www.example.com").trace
      ∧ 0 < GoMap.len [("Error", "Couldn't find any contact details.")] :=
  ⟨by decide,
    printed_details_nonempty (workingEnv emailText bareText [[192, 0, 2, 1]])
      "www.example.com" [("Error", "Couldn't find any contact details.")] (by decide)⟩

/-- C7: at a domain whose DNS answer is the empty list with a `nil` error,
`run` prints the registrar block, makes the DNS lookup and then panics on
`ips[0]`; it does not return an error. -/
theorem empty_dns_answer_panics :
    (workingEnv bareText "" []).lookupIP "example.com" = ([], none)
      ∧ run (workingEnv bareText "" []) "example.com" =
        { trace := [Event.whois "example.com",
                    Event.println "Report abuse to domain registrar:",
                    Event.printContactDetails [("Error", "Couldn't find any contact details.")],
                    Event.lookupIP "example.com"],
          outcome := .panicked "runtime error: index out of range [0] with length 0" } := by
  decide

/-- C8: when no shared-host rule matches and the WHOIS lookup of the
registrable root fails with `e`, `run` returns `e` wrapped with "failed to get
registrar abuse details: " and its whole trace is that one lookup (no block,
no DNS lookup, no host lookup); and `run` returns an error of this form only
when no shared-host rule matched and that lookup failed with `e`. -/
theorem registrar_lookup_failure (env : Env) (domain : String) :
    ((∀ entry ∈ env.sharedHostMatchers,
          (entry.2 (env.effectiveTLDPlusOne domain).1).1 = false) →
        ∀ e, (env.whois (env.effectiveTLDPlusOne domain).1).2 = some e →
          run env domain =
              { trace := [Event.whois (env.effectiveTLDPlusOne domain).1],
                outcome := .returned
                  (some (.wrapped "failed to get registrar abuse details: " e)) }
            ∧ GoError.Unwrap (.wrapped "failed to get registrar abuse details: " e) = some e
            ∧ GoError.Error (.wrapped "failed to get registrar abuse details: " e) =
                "failed to get registrar abuse details: " ++ e.Error)
      ∧ (∀ e, (run env domain).outcome =
            .returned (some (.wrapped "failed to get registrar abuse details: " e)) →
          (∀ entry ∈ env.sharedHostMatchers,
              (entry.2 (env.effectiveTLDPlusOne domain).1).1 = false)
            ∧ (env.whois (env.effectiveTLDPlusOne domain).1).2 = some e) := by
  constructor
  · intro hno e he
    have hs := (anyMatch_eq_false_iff _ _).2 hno
    rcases hw : env.whois (env.effectiveTLDPlusOne domain).1 with ⟨text, err⟩
    rw [hw] at he
    simp only at he
    subst he
    exact ⟨run_registrar_error env domain text e hs hw, rfl, rfl⟩
  · intro e hout
    cases hs : anyMatch env.sharedHostMatchers (env.effectiveTLDPlusOne domain).1
    · refine ⟨(anyMatch_eq_false_iff _ _).1 hs, ?_⟩
      rcases hw : env.whois (env.effectiveTLDPlusOne domain).1 with ⟨text, _ | e'⟩
      · rcases hd : env.lookupIP domain with ⟨ips, _ | e'⟩
        · cases ips with
          | nil =>
            rw [run_dns_empty env domain text hs hw hd] at hout
            simp at hout
          | cons ip rest =>
            rcases hh : env.whois (env.ipString ip) with ⟨hostText, _ | e'⟩
            · rw [run_host_ok env domain text hostText ip rest hs hw hd hh] at hout
              simp at hout
            · rw [run_host_error env domain text hostText ip rest e' hs hw hd hh] at hout
              simp only [Outcome.returned.injEq, Option.some.injEq,
                GoError.wrapped.injEq] at hout
              exact absurd hout.1 (by decide)
        · rw [run_dns_error env domain text ips e' hs hw hd] at hout
          simp only [Outcome.returned.injEq, Option.some.injEq,
            GoError.wrapped.injEq] at hout
          exact absurd hout.1 (by decide)
      · rw [run_registrar_error env domain text e' hs hw] at hout
        simp only [Outcome.returned.injEq, Option.some.injEq, GoError.wrapped.injEq,
          true_and] at hout
        simp [hout]
    · rw [run_shared env domain hs] at hout
      simp at hout

/-- C8 at `www.example.com` with a WHOIS collaborator that fails. -/
theorem registrar_lookup_failure_witness :
    run failingEnv "www.example.com" =
      { trace := [Event.whois "example.com"],
        outcome := .returned
          (some (.wrapped "failed to get registrar abuse details: " (.base "exit status 2"))) } :=
  ((registrar_lookup_failure failingEnv "www.example.com").1 (by decide)
    (.base "exit status 2") (by decide)).1

theorem run_trace_head (env : Env) (domain : String)
    (hs : anyMatch env.sharedHostMatchers (env.effectiveTLDPlusOne domain).1 = false) :
    (run env domain).trace.head? = some (Event.whois (env.effectiveTLDPlusOne domain).1)
      ∧ ∀ host, Event.lookupIP host ∈ (run env domain).trace → host = domain := by
  rcases hw : env.whois (env.effectiveTLDPlusOne domain).1 with ⟨text, _ | e⟩
  · rcases hd : env.lookupIP domain with ⟨ips, _ | e⟩
    · cases ips with
      | nil =>
        rw [run_dns_empty env domain text hs hw hd]
        refine ⟨rfl, fun host hmem => ?_⟩
        simpa using hmem
      | cons ip rest =>
        rcases hh : env.whois (env.ipString ip) with ⟨hostText, _ | e⟩
        · rw [run_host_ok env domain text hostText ip rest hs hw hd hh]
          refine ⟨rfl, fun host hmem => ?_⟩
          simpa using hmem
        · rw [run_host_error env domain text hostText ip rest e hs hw hd hh]
          refine ⟨rfl, fun host hmem => ?_⟩
          simpa using hmem
    · rw [run_dns_error env domain text ips e hs hw hd]
      refine ⟨rfl, fun host hmem => ?_⟩
      simpa using hmem
  · rw [run_registrar_error env domain text e hs hw]
    refine ⟨rfl, fun host hmem => ?_⟩
    simp at hmem

/-- C9, as the code has it: when the public-suffix computation returns the
string `root` together with an error, `run` goes on with `root`: the
shared-host rules are applied to `root`, the registrar WHOIS lookup is made
for `root` when none of them matches, every DNS lookup is made for the
original domain, and the error itself has no influence on the run. -/
theorem public_suffix_error_discarded (env : Env) (domain root : String) (e : GoError)
    (hfail : env.effectiveTLDPlusOne domain = (root, some e)) :
    ((∃ entry ∈ env.sharedHostMatchers, (entry.2 root).1 = true) →
        run env domain =
          { trace := [Event.println "Report abuse to shared hosting provider:",
                      Event.printContactDetails (sharedHostLoop env.sharedHostMatchers root).1],
            outcome := .returned none })
      ∧ ((∀ entry ∈ env.sharedHostMatchers, (entry.2 root).1 = false) →
          (run env domain).trace.head? = some (Event.whois root)
            ∧ ∀ host, Event.lookupIP host ∈ (run env domain).trace → host = domain)
      ∧ run { env with
              effectiveTLDPlusOne := fun d => ((env.effectiveTLDPlusOne d).1, none) } domain =
          run env domain := by
  have hroot : (env.effectiveTLDPlusOne domain).1 = root := by rw [hfail]
  refine ⟨?_, ?_, ?_⟩
  · intro hm
    have := run_shared env domain (by rw [hroot]; exact (anyMatch_eq_true_iff _ _).2 hm)
    rw [hroot] at this
    exact this
  · intro hno
    have := run_trace_head env domain (by rw [hroot]; exact (anyMatch_eq_false_iff _ _).2 hno)
    rw [hroot] at this
    exact this
  · simp [run, getAbuseReportDetails, hfail]

/-- C9 fails at the domain `com`: the public-suffix computation fails there
and returns the empty string; the one shared-host rule matches the string
`com`, yet no shared-host block is printed, and the registrar WHOIS lookup is
made for the empty string and never for `com`. -/
theorem public_suffix_failure_counterexample :
    suffixEnv.effectiveTLDPlusOne "com" =
        ("", some (.base "publicsuffix: cannot derive eTLD+1 for domain com"))
      ∧ (∃ entry ∈ suffixEnv.sharedHostMatchers, (entry.2 "com").1 = true)
      ∧ (run suffixEnv "com").trace =
          [Event.whois "",
           Event.println "Report abuse to domain registrar:",
           Event.printContactDetails [("Error", "Couldn't find any contact details.")],
           Event.lookupIP "com",
           Event.whois "192.0.2.1",
           Event.println "Report abuse to host:",
           Event.printContactDetails [("Error", "Couldn't find any contact details.")]]
      ∧ Event.whois "com" ∉ (run suffixEnv "com").trace := by
  decide

/-- C9, as the code has it, at the domain `com`. -/
theorem public_suffix_error_discarded_witness :
    (run suffixEnv "com").trace.head? = some (Event.whois "")
      ∧ (∀ host, Event.lookupIP host ∈ (run suffixEnv "com").trace → host = "com") :=
  (public_suffix_error_discarded suffixEnv "com" ""
    (.base "publicsuffix: cannot derive eTLD+1 for domain com") (by decide)).2.1 (by decide)

/-- C10: when no shared-host rule matches, the registrar lookup succeeds and
DNS answers with the list `ip :: rest` and a `nil` error, the trace of `run`
after the registrar block is the DNS lookup of the original domain and one
WHOIS lookup, of the string form of `ip`; when that lookup succeeds with
`hostText` the run ends with the line "Report abuse to host:" and the
classification of `hostText` and returns `nil`, when it fails the run returns
the error wrapped with "failed to get host abuse details: "; and replacing
`rest` by any other list gives the same run. -/
theorem host_phase_uses_first_address (env : Env) (domain text : String) (ip : IP)
    (rest : List IP)
    (hno : ∀ entry ∈ env.sharedHostMatchers,
      (entry.2 (env.effectiveTLDPlusOne domain).1).1 = false)
    (hw : env.whois (env.effectiveTLDPlusOne domain).1 = (text, none))
    (hd : env.lookupIP domain = (ip :: rest, none)) :
    (∀ hostText, env.whois (env.ipString ip) = (hostText, none) →
        run env domain =
            { trace := [Event.whois (env.effectiveTLDPlusOne domain).1,
                        Event.println "Report abuse to domain registrar:",
                        Event.printContactDetails (classification env text),
                        Event.lookupIP domain,
                        Event.whois (env.ipString ip),
                        Event.println "Report abuse to host:",
                        Event.printContactDetails (classification env hostText)],
              outcome := .returned none }
          ∧ getAbuseReportDetails env (env.ipString ip) =
              ([Event.whois (env.ipString ip)], .ok (classification env hostText)))
      ∧ (∀ hostText e, env.whois (env.ipString ip) = (hostText, some e) →
          run env domain =
            { trace := [Event.whois (env.effectiveTLDPlusOne domain).1,
                        Event.println "Report abuse to domain registrar:",
                        Event.printContactDetails (classification env text),
                        Event.lookupIP domain,
                        Event.whois (env.ipString ip)],
              outcome := .returned
                (some (.wrapped "failed to get host abuse details: " e)) })
      ∧ (∀ rest' : List IP,
          run { env with
                lookupIP := fun host =>
                  if host = domain then (ip :: rest', none) else env.lookupIP host } domain =
            run env domain) := by
  have hs := (anyMatch_eq_false_iff _ _).2 hno
  refine ⟨?_, ?_, ?_⟩
  · intro hostText hh
    exact ⟨run_host_ok env domain text hostText ip rest hs hw hd hh,
      getAbuseReportDetails_ok env _ hostText hh⟩
  · intro hostText e hh
    exact run_host_error env domain text hostText ip rest e hs hw hd hh
  · intro rest'
    simp [run, getAbuseReportDetails, hd]

/-- C10 at `www.example.com`, whose DNS answer has two addresses. -/
theorem host_phase_uses_first_address_witness :
    run (workingEnv emailText cloudflareText [[192, 0, 2, 1], [198, 51, 100, 7]])
        "www.example.com" =
      { trace := [Event.whois "example.com",
                  Event.println "Report abuse to domain registrar:",
                  Event.printContactDetails [("Email", "abuse@example.com")],
                  Event.lookupIP "www.example.com",
                  Event.whois "192.0.2.1",
                  Event.println "Report abuse to host:",
                  Event.printContactDetails
                    [("Cloudflare", "https://www.cloudflare.com/abuse/form"),
                     ("ARIN", "abuse@arin.example")]],
        outcome := .returned none } :=
  ((host_phase_uses_first_address
      (workingEnv emailText cloudflareText [[192, 0, 2, 1], [198, 51, 100, 7]])
      "www.example.com" emailText [192, 0, 2, 1] [[198, 51, 100, 7]]
      (by decide) (by decide) (by decide)).1 cloudflareText (by decide)).1

end Abwhose
